import Mathlib

/-!
Verification of the preference-file write-coalescing mechanism of
`abstract-resource-preference-provider.ts` (Theia preferences package).

The development shallowly embeds the coordinator's pure core:

* `LockQueue` — the mutual-exclusion queue (source lines 41-80), as an
  explicit state machine over a `busy` flag, a FIFO waiter list and the
  list of `onFree` observers registered by `waitUntilFree`.
* The enqueue segment of `setPreference` (source lines 167-192): the code
  between the `waitUntilFree` suspension and the `return` is synchronous
  (no `await`), hence one atomic step `enqueueStep` on the coordinator
  state.
* The flush transaction `doSetPreferences` (source lines 195-218): a
  FIFO drain of the edit queue followed by lock acquisition, a save when
  the document is dirty, and resolution of the shared transaction
  outcome.
* The per-key edit `doSetPreference` (source lines 220-267), both at the
  parsed-document level (for batching/last-writer claims) and at the
  text level (for the branch structure: no-op, `jsoncparser.modify`
  edits, full clear).
* `handleDirtyEditor` (269-286), `readPreferences` (296-313),
  `handlePreferenceChanges` (347-377) and `reset` (379-394).

Values are modelled by `JValue`, a flat JSON-ish value domain extended
with `undefined` mirroring JavaScript's `undefined` (which the source uses
both as "delete this key" in writes and as "absent" in snapshot
accesses).  Documents carry their parsed content as an association list;
the external structured-edit differ (`jsoncparser.modify` +
`applyBackgroundEdit`) is embedded through its contract: a set always
produces edits, a delete produces edits exactly when the key is present,
and a throwing apply is an oracle parameter.
-/

namespace PrefProvider

/-- JavaScript-style values stored in a preference document: a flat JSON
value domain plus `undefined` for JavaScript's `undefined`. -/
inductive JValue where
  | nullv : JValue
  | boolv : Bool → JValue
  | numv : Int → JValue
  | strv : String → JValue
  | undefined : JValue
deriving DecidableEq, Repr

/-- Association-list lookup on parsed document content / snapshots. -/
def lookupKey : List (String × JValue) → String → Option JValue
  | [], _ => none
  | (k', v) :: rest, k => if k' = k then some v else lookupKey rest k

/-- Insert-or-replace of a key, preserving the position of an existing
binding (the behaviour of a structured edit that rewrites one value). -/
def upsert : List (String × JValue) → String → JValue → List (String × JValue)
  | [], k, v => [(k, v)]
  | (k', v') :: rest, k, v =>
    if k' = k then (k, v) :: rest else (k', v') :: upsert rest k v

/-- Removal of a key from parsed content (a structured delete edit). -/
def eraseKey : List (String × JValue) → String → List (String × JValue)
  | [], _ => []
  | (k', v') :: rest, k =>
    if k' = k then eraseKey rest k else (k', v') :: eraseKey rest k

theorem lookupKey_upsert (l : List (String × JValue)) (k k' : String) (v : JValue) :
    lookupKey (upsert l k v) k' = if k = k' then some v else lookupKey l k' := by
  induction l with
  | nil => by_cases h : k = k' <;> simp [upsert, lookupKey, h]
  | cons hd tl ih =>
    obtain ⟨k₀, v₀⟩ := hd
    by_cases h0 : k₀ = k
    · subst h0
      by_cases h : k₀ = k' <;> simp [upsert, lookupKey, h]
    · by_cases h : k₀ = k'
      · subst h
        have : ¬ k = k₀ := fun hc => h0 hc.symm
        simp [upsert, lookupKey, h0, this]
      · simp [upsert, lookupKey, h0, h, ih]

theorem lookupKey_eraseKey (l : List (String × JValue)) (k k' : String) :
    lookupKey (eraseKey l k) k' = if k = k' then none else lookupKey l k' := by
  induction l with
  | nil => by_cases h : k = k' <;> simp [eraseKey, lookupKey, h]
  | cons hd tl ih =>
    obtain ⟨k₀, v₀⟩ := hd
    by_cases h0 : k₀ = k
    · subst h0
      by_cases h : k₀ = k'
      · subst h
        simp [eraseKey, lookupKey, ih]
      · simp [eraseKey, lookupKey, h, ih]
    · by_cases h : k₀ = k'
      · subst h
        have : ¬ k = k₀ := fun hc => h0 hc.symm
        simp [eraseKey, lookupKey, h0, this]
      · simp [eraseKey, lookupKey, h0, h, ih]

/-! ## The mutual-exclusion queue (`LockQueue`, source lines 41-80)

Waiters admitted by `acquire` and observers registered by
`waitUntilFree` are identified by natural-number tokens; "a deferred is
resolved" is modelled by the token being reported in the step's effect. -/

/-- State of the `LockQueue`: the FIFO list of queued `acquire` waiters
(`queue`, source line 42), the `busy` flag (line 43), and the observers
currently subscribed to the `onFree` event by `waitUntilFree`
(lines 73-78). -/
structure LockQueue where
  queue : List Nat
  busy : Bool
  observers : List Nat
deriving DecidableEq, Repr

/-- The freshly constructed lock: nothing queued, not busy, nobody
waiting for freedom. -/
def LockQueue.init : LockQueue := ⟨[], false, []⟩

/-- Effect of `acquire` (source lines 47-56): the new state and whether
the caller was granted the lock immediately (`wasBusy` false) or
appended to the FIFO wait list. -/
def LockQueue.acquire (l : LockQueue) (caller : Nat) : LockQueue × Bool :=
  let wasBusy := l.busy
  if wasBusy then
    ({ l with busy := true, queue := l.queue ++ [caller] }, false)
  else
    ({ l with busy := true }, true)

/-- Effect record of a `release` step: the waiter whose `acquire`
deferred was resolved (the lock transferred to it), if any, and the
`waitUntilFree` observers notified by the `onFree` event. -/
structure ReleaseEffect where
  transferredTo : Option Nat
  freedObservers : List Nat
deriving DecidableEq, Repr

/-- Effect of `release` (source lines 58-66): if the wait list is
non-empty the head waiter's deferred is resolved and the lock stays
busy; otherwise the lock becomes free and the `onFree` emitter fires,
notifying every subscribed observer (each disposes its subscription on
the first fire, lines 74-77). -/
def LockQueue.release (l : LockQueue) : LockQueue × ReleaseEffect :=
  match l.queue with
  | next :: rest =>
    ({ l with queue := rest }, { transferredTo := some next, freedObservers := [] })
  | [] =>
    ({ l with busy := false, observers := [] },
     { transferredTo := none, freedObservers := l.observers })

/-- Effect of `waitUntilFree` (source lines 68-79): resolves immediately
when the lock is not busy (the returned flag is `true`), otherwise
subscribes the observer to the next `onFree` event. -/
def LockQueue.waitUntilFree (l : LockQueue) (obs : Nat) : LockQueue × Bool :=
  if l.busy then
    ({ l with observers := l.observers ++ [obs] }, false)
  else
    (l, true)

/-- Operations arriving at the lock over time. -/
inductive LockOp where
  | acquire : Nat → LockOp
  | release : LockOp
  | waitUntilFree : Nat → LockOp
deriving DecidableEq, Repr

/-- One step of the lock state machine (effects dropped). -/
def LockQueue.step (l : LockQueue) : LockOp → LockQueue
  | .acquire c => (l.acquire c).1
  | .release => l.release.1
  | .waitUntilFree o => (l.waitUntilFree o).1

/-- The lock state reached from the initial state by a sequence of
operations. -/
def LockQueue.run (ops : List LockOp) : LockQueue :=
  ops.foldl LockQueue.step LockQueue.init

/-- Busy-flag invariant of the lock: whenever the busy flag is cleared,
the wait list is empty. -/
def LockQueue.inv (l : LockQueue) : Prop := l.busy = false → l.queue = []

theorem LockQueue.inv_init : LockQueue.inv LockQueue.init := by
  intro _; rfl

theorem LockQueue.inv_step (l : LockQueue) (op : LockOp) (h : l.inv) :
    (l.step op).inv := by
  cases op with
  | acquire c =>
    by_cases hb : l.busy <;>
      simp [LockQueue.step, LockQueue.acquire, hb, LockQueue.inv]
  | release =>
    cases hq : l.queue with
    | nil => simp [LockQueue.step, LockQueue.release, hq, LockQueue.inv]
    | cons w rest =>
      have hb : l.busy = true := by
        by_contra hc
        have := h (by simpa using hc)
        simp [hq] at this
      intro hfalse
      simp [LockQueue.step, LockQueue.release, hq] at hfalse
      rw [hb] at hfalse
      exact absurd hfalse (by simp)
  | waitUntilFree o =>
    by_cases hb : l.busy
    · simp [LockQueue.step, LockQueue.waitUntilFree, hb, LockQueue.inv]
    · have hq := h (by simpa using hb)
      simp [LockQueue.step, LockQueue.waitUntilFree, hb, LockQueue.inv, hq]

theorem LockQueue.inv_foldl (ops : List LockOp) :
    ∀ l : LockQueue, l.inv → (ops.foldl LockQueue.step l).inv := by
  induction ops with
  | nil => intro l h; simpa using h
  | cons op rest ih =>
    intro l h
    exact ih _ (LockQueue.inv_step l op h)

theorem LockQueue.inv_run (ops : List LockOp) : (LockQueue.run ops).inv :=
  LockQueue.inv_foldl ops LockQueue.init LockQueue.inv_init

/-! ## Documents and writes -/

/-- The live text document as observed by the coordinator: its parsed
content (association list of top-level keys), the dirty flag, and the
validity flag. -/
structure Doc where
  content : List (String × JValue)
  dirty : Bool
  valid : Bool
deriving DecidableEq, Repr

/-- One `setPreference` request: the key and the new value, with
`JValue.undefined` meaning "delete the key" exactly as `undefined` does in
the source. -/
structure Write where
  key : String
  value : JValue
deriving DecidableEq, Repr

/-- Source line 288-290: the abstract provider's `getPath` wraps the
preference name in a singleton path. -/
def getPath (preferenceName : String) : Option (List String) :=
  some [preferenceName]

/-! ## The enqueue segment of `setPreference` (source lines 167-192)

After the `await this.fileEditLock.waitUntilFree()` suspension resolves,
lines 178-190 run synchronously (no `await`): read
`isFirstEditInQueue`, compute `mustHandleDirty`, push the write, arm the
dirty gate and start `handleDirtyEditor` when required, and start
`doSetPreferences` when the queue was empty.  That segment is one atomic
step on the coordinator state. -/

/-- Coordinator state as seen by the enqueue segment.  `promptCount`
counts invocations of `handleDirtyEditor` (each shows one dirty-editor
prompt, source line 270), `flushStartCount` counts invocations of
`doSetPreferences` (source line 189), and `dirtyGatePending` records
whether `dirtyEditorHandled` is currently an unresolved deferred
(source line 184). -/
structure CoordState where
  doc : Doc
  editQueue : List Write
  lock : LockQueue
  dirtyGatePending : Bool
  promptCount : Nat
  flushStartCount : Nat
deriving DecidableEq, Repr

/-- The synchronous segment of `setPreference` after the lock is free
(source lines 178-190). -/
def enqueueStep (s : CoordState) (w : Write) : CoordState :=
  let isFirstEditInQueue := s.editQueue.isEmpty
  let mustHandleDirty := isFirstEditInQueue && s.doc.dirty
  let s1 := { s with editQueue := s.editQueue ++ [w] }
  let s2 :=
    if mustHandleDirty then
      { s1 with dirtyGatePending := true, promptCount := s1.promptCount + 1 }
    else s1
  if isFirstEditInQueue then
    { s2 with flushStartCount := s2.flushStartCount + 1 }
  else s2

/-- A batch of writes arriving back-to-back while the drain loop has not
yet run (e.g. because the dirty gate is pending, or before the flush's
first suspension resumes). -/
def enqueueBatch (s : CoordState) (ws : List Write) : CoordState :=
  ws.foldl enqueueStep s

/-- Result of the pre-enqueue phase of `setPreference` (source lines
167-192): the guards at lines 168-174 fail closed, the
`waitUntilFree` await at line 177 suspends the call while the save-lock
is busy, and only afterwards does the atomic enqueue segment run. -/
inductive SetPrefStart where
  | notReady : SetPrefStart
  | outOfScope : SetPrefStart
  | blockedOnLock : SetPrefStart
  | enqueued : CoordState → SetPrefStart
deriving DecidableEq, Repr

/-- The pre-enqueue phase of `setPreference`.  `modelReady` is the
conjunction of `loading` having resolved and `this.model` being set;
`inScope` is `this.contains(resourceUri)`. -/
def setPreferenceStart (modelReady inScope : Bool) (s : CoordState) (w : Write) :
    SetPrefStart :=
  if !modelReady then .notReady
  else if !inScope then .outOfScope
  else if s.lock.busy then .blockedOnLock
  else .enqueued (enqueueStep s w)

/-! ## The per-key edit `doSetPreference` at the document level
(source lines 220-267)

With the provider's own `getPath` the path is always the singleton
`[key]`, so the `path.length || value !== undefined` test at line 235 is
always true and the edit goes through `jsoncparser.modify`.  The
external differ contract: a set always produces edits; a delete produces
edits exactly when the key is present.  `applyThrows` is the oracle for
an exception thrown by the parse/apply sequence inside the `try`. -/

/-- Whether the `jsoncparser.modify` branch produces a non-empty edit
list for this write on this content (external differ contract,
spec section 4.4). -/
def modifyProducesEdits (content : List (String × JValue)) (w : Write) : Bool :=
  match w.value with
  | .undefined => (lookupKey content w.key).isSome
  | _ => true

/-- The content after the structured edit: delete for `undefined`, upsert
otherwise. -/
def applyContent (content : List (String × JValue)) (w : Write) :
    List (String × JValue) :=
  match w.value with
  | .undefined => eraseKey content w.key
  | v => upsert content w.key v

/-- Outcome of one `doSetPreference` call at the document level: the
returned boolean, the document afterwards, and whether the catch block
ran (error notification shown and error logged, source lines 261-265). -/
structure EditResult where
  result : Bool
  doc : Doc
  caughtError : Bool
deriving DecidableEq, Repr

/-- `doSetPreference` (source lines 220-267) on the parsed document.
Line 230: empty trimmed content together with a deleting write returns
`true` before any edit.  Otherwise the modify/apply sequence runs inside
the `try`; on a throw the catch returns `false` with the document
untouched; on success the document is edited and becomes dirty exactly
when a non-empty edit list was applied. -/
def doSetPreferenceDoc (doc : Doc) (w : Write) (applyThrows : Bool) : EditResult :=
  if doc.content = [] ∧ w.value = .undefined then
    { result := true, doc := doc, caughtError := false }
  else if applyThrows then
    { result := false, doc := doc, caughtError := true }
  else
    { result := true,
      doc := { doc with
                content := applyContent doc.content w,
                dirty := doc.dirty || modifyProducesEdits doc.content w },
      caughtError := false }

/-! ## The flush transaction `doSetPreferences` (source lines 195-218) -/

/-- How a queued write's `editResolver` was resolved during the drain
loop (source lines 198-202): to `false` immediately when the edit failed
to apply, or to the shared `localPendingChanges.promise` placeholder
otherwise. -/
inductive EditOutcome where
  | immediateFalse : EditOutcome
  | sharedOutcome : EditOutcome
deriving DecidableEq, Repr

/-- State of the drain loop: the evolving document, the writes resolved
so far in drain order, and the number of error notifications shown. -/
structure DrainState where
  doc : Doc
  resolvedInLoop : List (Write × EditOutcome)
  notifications : Nat
deriving DecidableEq, Repr

/-- The `while (this.editQueue.length)` drain loop (source lines
198-202), with `applyThrows` the per-write oracle for the apply
throwing. -/
def drainQueue (applyThrows : Write → Bool) (doc : Doc) :
    List Write → DrainState
  | [] => { doc := doc, resolvedInLoop := [], notifications := 0 }
  | w :: rest =>
    let r := doSetPreferenceDoc doc w (applyThrows w)
    let outcome := if r.result then EditOutcome.sharedOutcome
                   else EditOutcome.immediateFalse
    let tail := drainQueue applyThrows r.doc rest
    { doc := tail.doc,
      resolvedInLoop := (w, outcome) :: tail.resolvedInLoop,
      notifications := (if r.caughtError then 1 else 0) + tail.notifications }

/-- Outcome of one whole flush transaction: the final boolean each
queued write's promise resolves to (in drain order), the document, the
number of `model.save()` invocations, the number of error
notifications, and the shared transaction outcome (`success`). -/
structure FlushResult where
  resolved : List (Write × Bool)
  doc : Doc
  saveCount : Nat
  notifications : Nat
  success : Bool
deriving DecidableEq, Repr

/-- The tail of `doSetPreferences` after the drain loop (source lines
203-217): acquire the save-lock, save iff the model is dirty
(`saveResult` is the externally observed post-save outcome of
`this.pendingChanges`, `none` when the save sequence throws), release
the lock, and resolve `localPendingChanges` with `success`, which in
turn resolves every write that was handed the shared placeholder. -/
def finishFlush (d : DrainState) (saveResult : Option Bool) : FlushResult :=
  let saved := d.doc.dirty
  let success := if saved then (match saveResult with
                                | some b => b
                                | none => false)
                 else true
  let docAfter := if saved ∧ saveResult.isSome then { d.doc with dirty := false }
                  else d.doc
  { resolved := d.resolvedInLoop.map fun p =>
      (p.1, match p.2 with
            | .sharedOutcome => success
            | .immediateFalse => false),
    doc := docAfter,
    saveCount := if saved then 1 else 0,
    notifications := d.notifications,
    success := success }

/-- One whole flush transaction `doSetPreferences` over a queue, with
the dirty gate already resolved. -/
def runFlush (applyThrows : Write → Bool) (saveResult : Option Bool)
    (doc : Doc) (queue : List Write) : FlushResult :=
  finishFlush (drainQueue applyThrows doc queue) saveResult

/-! ## The dirty-editor handler (source lines 269-286) -/

/-- The user's answer to the dirty-editor prompt: one of the two named
actions, or a dismissal (the message service resolving to anything
else). -/
inductive DirtyChoice where
  | saveAndRetry : DirtyChoice
  | openFile : DirtyChoice
  | dismissed : DirtyChoice
deriving DecidableEq, Repr

/-- Effects of one `handleDirtyEditor` run: the edit queue afterwards,
the writes whose resolvers were resolved to `false`, whether
`model.save()` was invoked, whether the file was opened in an editor,
and how many times `dirtyEditorHandled.resolve()` ran. -/
structure DirtyHandlerResult where
  editQueue : List Write
  resolvedFalse : List Write
  modelSaved : Bool
  fileOpened : Bool
  gateResolveCount : Nat
deriving DecidableEq, Repr

/-- `handleDirtyEditor` (source lines 269-286): open the file or save
according to the choice (lines 274-280, only when the model is still
present); for any answer other than `Save and Retry`, resolve every
queued write to `false` and clear the queue (lines 281-284); resolve the
dirty-handled gate unconditionally (line 285). -/
def handleDirtyEditor (choice : DirtyChoice) (modelPresent : Bool)
    (queue : List Write) : DirtyHandlerResult :=
  let fileOpened := modelPresent && choice = DirtyChoice.openFile
  let modelSaved := modelPresent && choice = DirtyChoice.saveAndRetry
  if choice = DirtyChoice.saveAndRetry then
    { editQueue := queue, resolvedFalse := [], modelSaved := modelSaved,
      fileOpened := fileOpened, gateResolveCount := 1 }
  else
    { editQueue := [], resolvedFalse := queue, modelSaved := modelSaved,
      fileOpened := fileOpened, gateResolveCount := 1 }

/-! ## Snapshot re-parse (source lines 296-377) and reset (379-394) -/

/-- A preference change record (old value `undefined` encodes "absent", as
indexing a JavaScript object off a missing key yields `undefined`). -/
structure PrefChange where
  preferenceName : String
  oldValue : JValue
  newValue : JValue
deriving DecidableEq, Repr

/-- JavaScript-style indexing of a snapshot: a missing key reads as
`undefined`. -/
def jsGet (prefs : List (String × JValue)) (k : String) : JValue :=
  (lookupKey prefs k).getD .undefined

/-- `getParsedContent` (source lines 315-336) restricted to the flat
value domain: each top-level entry is copied into the fresh snapshot
object.  Override-container expansion (lines 325-330) only fires on
object values, which the flat domain does not contain. -/
def getParsedContent (jsonData : List (String × JValue)) :
    List (String × JValue) :=
  jsonData.foldl (fun acc kv => upsert acc kv.1 kv.2) []

/-- Result of a snapshot recomputation: the stored snapshot afterwards
and the change records pushed for emission. -/
structure ReadResult where
  preferences : List (String × JValue)
  changes : List PrefChange
deriving DecidableEq, Repr

/-- `handlePreferenceChanges` (source lines 347-377): replace the stored
snapshot with the new one, then for every key of either snapshot emit a
change record unless the schema declares the key and the provider's
scope is not among the key's valid scopes (lines 356-363), or the old
and new values are equal under the three-clause comparison of lines
365-367. -/
def handlePreferenceChanges (hasSchema validInScope : String → Bool)
    (oldPrefs newPrefs : List (String × JValue)) : ReadResult :=
  let names := ((oldPrefs.map Prod.fst) ++ (newPrefs.map Prod.fst)).dedup
  let changes := names.filterMap fun n =>
    let oldValue := jsGet oldPrefs n
    let newValue := jsGet newPrefs n
    if hasSchema n ∧ ¬ validInScope n then none
    else if (newValue = .undefined ∧ oldValue ≠ newValue)
         ∨ (oldValue = .undefined ∧ newValue ≠ oldValue)
         ∨ oldValue ≠ newValue then
      some ⟨n, oldValue, newValue⟩
    else none
  ⟨newPrefs, changes⟩

/-- `readPreferences` (source lines 296-313): an early no-op when there
is no model or the model is dirty; otherwise parse the text when valid
(empty snapshot when invalid) and hand the result to
`handlePreferenceChanges`. -/
def readPreferences (hasSchema validInScope : String → Bool)
    (model : Option Doc) (prefs : List (String × JValue)) : ReadResult :=
  match model with
  | none => ⟨prefs, []⟩
  | some m =>
    if m.dirty then ⟨prefs, []⟩
    else
      let newPrefs := if m.valid then getParsedContent m.content else []
      handlePreferenceChanges hasSchema validInScope prefs newPrefs

/-- `reset` (source lines 379-394): clear the stored snapshot and push a
removal change record (new value `undefined`) for every key whose stored
value was not `undefined`. -/
def reset (prefs : List (String × JValue)) :
    List (String × JValue) × List PrefChange :=
  ([], prefs.filterMap fun kv =>
        if kv.2 ≠ JValue.undefined then some ⟨kv.1, kv.2, JValue.undefined⟩ else none)

/-! ## The text-level branch structure of `doSetPreference`
(source lines 228-258), for the full-document-clear claim

`content` is the trimmed document text; `modifyResultText` stands for
the text produced by the external `jsoncparser.modify` edits when that
branch runs and the apply succeeds. -/

/-- Outcome of `doSetPreference` at the raw-text level. -/
structure TextEditResult where
  result : Bool
  text : String
  caughtError : Bool
deriving DecidableEq, Repr

/-- `doSetPreference` over raw text (source lines 220-267), taking the
path returned by `getPath` (line 224-227: `undefined` fails closed).
Line 230-232: empty content with a deleting write succeeds without
editing.  Line 235: with a non-empty path or a defined value, the
`jsoncparser.modify` edits are applied; otherwise (lines 252-257) the
full model range is replaced with empty text.  A throw anywhere in the
`try` is caught, notified and logged, and yields `false`
(lines 261-266). -/
def doSetPreferenceText (path : Option (List String)) (deleting : Bool)
    (content : String) (modifyResultText : String) (applyThrows : Bool) :
    TextEditResult :=
  match path with
  | none => { result := false, text := content, caughtError := false }
  | some p =>
    if content = "" ∧ deleting then
      { result := true, text := content, caughtError := false }
    else if applyThrows then
      { result := false, text := content, caughtError := true }
    else if p ≠ [] ∨ ¬ deleting then
      { result := true, text := modifyResultText, caughtError := false }
    else
      { result := true, text := "", caughtError := false }

/-! ## A clean-document batch scenario

All writes of the batch complete their enqueue segments before the
flush's first suspension resumes, so the single flush started by the
first write drains the whole batch. -/

/-- The coordinator state for a provider that has just become ready on
document `doc`. -/
def initialState (doc : Doc) : CoordState :=
  { doc := doc, editQueue := [], lock := LockQueue.init,
    dirtyGatePending := false, promptCount := 0, flushStartCount := 0 }

/-- Enqueue a batch of writes on a fresh coordinator over `doc`, then
run the single flush transaction over the accumulated queue with a
healthy edit application and post-save outcome `saveResult`. -/
def runBatchClean (doc : Doc) (ws : List Write) (saveResult : Option Bool) :
    CoordState × FlushResult :=
  let s := enqueueBatch (initialState doc) ws
  (s, runFlush (fun _ => false) saveResult s.doc s.editQueue)

/-- The content after draining a list of writes in FIFO order. -/
def applyAll (content : List (String × JValue)) (ws : List Write) :
    List (String × JValue) :=
  ws.foldl applyContent content

/-- The value carried by the last write of the sequence that touched the
given key, if any. -/
def lastWritten : List Write → String → Option JValue
  | [], _ => none
  | w :: rest, k =>
    match lastWritten rest k with
    | some v => some v
    | none => if w.key = k then some w.value else none

/-! ## Lemmas about the structured edits -/

theorem lookupKey_applyContent (content : List (String × JValue)) (w : Write)
    (k : String) :
    lookupKey (applyContent content w) k =
      if w.key = k then (if w.value = .undefined then none else some w.value)
      else lookupKey content k := by
  cases hv : w.value with
  | undefined => simp [applyContent, hv, lookupKey_eraseKey]
  | nullv => simp [applyContent, hv, lookupKey_upsert]
  | boolv b => simp [applyContent, hv, lookupKey_upsert]
  | numv n => simp [applyContent, hv, lookupKey_upsert]
  | strv t => simp [applyContent, hv, lookupKey_upsert]

theorem lookupKey_applyAll (ws : List Write) :
    ∀ content k,
      lookupKey (applyAll content ws) k =
        match lastWritten ws k with
        | some v => if v = .undefined then none else some v
        | none => lookupKey content k := by
  induction ws with
  | nil => intro content k; simp [applyAll, lastWritten]
  | cons w rest ih =>
    intro content k
    have step : applyAll content (w :: rest) = applyAll (applyContent content w) rest := rfl
    rw [step, ih]
    cases hr : lastWritten rest k with
    | some v => simp [lastWritten, hr]
    | none =>
      by_cases hk : w.key = k
      · simp [lastWritten, hr, hk, lookupKey_applyContent]
      · simp [lastWritten, hr, hk, lookupKey_applyContent]

theorem modifyProducesEdits_of_set (content : List (String × JValue)) (w : Write)
    (h : w.value ≠ .undefined) : modifyProducesEdits content w = true := by
  cases hv : w.value with
  | undefined => exact absurd hv h
  | nullv => simp [modifyProducesEdits, hv]
  | boolv b => simp [modifyProducesEdits, hv]
  | numv n => simp [modifyProducesEdits, hv]
  | strv t => simp [modifyProducesEdits, hv]

/-! ## Lemmas about the enqueue segment -/

theorem enqueueStep_empty_not_dirty (s : CoordState) (w : Write)
    (hq : s.editQueue = []) (hd : s.doc.dirty = false) :
    enqueueStep s w =
      { s with editQueue := [w], flushStartCount := s.flushStartCount + 1 } := by
  simp [enqueueStep, hq, hd]

theorem enqueueStep_empty_dirty (s : CoordState) (w : Write)
    (hq : s.editQueue = []) (hd : s.doc.dirty = true) :
    enqueueStep s w =
      { s with
        editQueue := [w]
        dirtyGatePending := true
        promptCount := s.promptCount + 1
        flushStartCount := s.flushStartCount + 1 } := by
  simp [enqueueStep, hq, hd]

theorem enqueueStep_nonempty (s : CoordState) (w : Write)
    (hq : s.editQueue ≠ []) :
    enqueueStep s w = { s with editQueue := s.editQueue ++ [w] } := by
  obtain ⟨q0, qs, hcons⟩ := List.exists_cons_of_ne_nil hq
  simp [enqueueStep, hcons]

theorem enqueueBatch_nonempty (ws : List Write) :
    ∀ s : CoordState, s.editQueue ≠ [] →
      enqueueBatch s ws = { s with editQueue := s.editQueue ++ ws } := by
  induction ws with
  | nil => intro s _; simp [enqueueBatch]
  | cons w rest ih =>
    intro s hq
    have step : enqueueBatch s (w :: rest) = enqueueBatch (enqueueStep s w) rest := rfl
    rw [step, enqueueStep_nonempty s w hq]
    rw [ih _ (by simp)]
    simp

theorem enqueueBatch_clean (s : CoordState) (w : Write) (ws : List Write)
    (hq : s.editQueue = []) (hd : s.doc.dirty = false) :
    enqueueBatch s (w :: ws) =
      { s with
        editQueue := w :: ws
        flushStartCount := s.flushStartCount + 1 } := by
  have step : enqueueBatch s (w :: ws) = enqueueBatch (enqueueStep s w) ws := rfl
  rw [step, enqueueStep_empty_not_dirty s w hq hd]
  rw [enqueueBatch_nonempty ws _ (by simp)]
  simp

theorem enqueueBatch_dirty (s : CoordState) (w : Write) (ws : List Write)
    (hq : s.editQueue = []) (hd : s.doc.dirty = true) :
    enqueueBatch s (w :: ws) =
      { s with
        editQueue := w :: ws
        dirtyGatePending := true
        promptCount := s.promptCount + 1
        flushStartCount := s.flushStartCount + 1 } := by
  have step : enqueueBatch s (w :: ws) = enqueueBatch (enqueueStep s w) ws := rfl
  rw [step, enqueueStep_empty_dirty s w hq hd]
  rw [enqueueBatch_nonempty ws _ (by simp)]
  simp

/-! ## Lemmas about the drain loop -/

theorem doSetPreferenceDoc_noThrow (doc : Doc) (w : Write) :
    doSetPreferenceDoc doc w false =
      { result := true
        doc := { doc with
                 content := applyContent doc.content w
                 dirty := doc.dirty || modifyProducesEdits doc.content w }
        caughtError := false } := by
  by_cases h : doc.content = [] ∧ w.value = .undefined
  · obtain ⟨h1, h2⟩ := h
    simp only [doSetPreferenceDoc, h1, h2, applyContent, eraseKey,
          modifyProducesEdits, lookupKey, and_self, if_true]
    cases doc with
    | mk c d v =>
      simp at h1
      simp [h1]
  · simp [doSetPreferenceDoc, h]

theorem drainQueue_noThrow_content (ws : List Write) :
    ∀ doc : Doc,
      (drainQueue (fun _ => false) doc ws).doc.content = applyAll doc.content ws := by
  induction ws with
  | nil => intro doc; simp [drainQueue, applyAll]
  | cons w rest ih =>
    intro doc
    simp only [drainQueue, doSetPreferenceDoc_noThrow]
    exact ih _

theorem drainQueue_noThrow_resolved (ws : List Write) :
    ∀ doc : Doc,
      (drainQueue (fun _ => false) doc ws).resolvedInLoop =
        ws.map (fun w => (w, EditOutcome.sharedOutcome)) := by
  induction ws with
  | nil => intro doc; simp [drainQueue]
  | cons w rest ih =>
    intro doc
    simp only [drainQueue, doSetPreferenceDoc_noThrow, List.map]
    simp [ih]

theorem drainQueue_noThrow_notifications (ws : List Write) :
    ∀ doc : Doc,
      (drainQueue (fun _ => false) doc ws).notifications = 0 := by
  induction ws with
  | nil => intro doc; simp [drainQueue]
  | cons w rest ih =>
    intro doc
    simp only [drainQueue, doSetPreferenceDoc_noThrow]
    simp [ih]

theorem drainQueue_dirty_mono (o : Write → Bool) (ws : List Write) :
    ∀ doc : Doc, doc.dirty = true →
      (drainQueue o doc ws).doc.dirty = true := by
  induction ws with
  | nil => intro doc h; simpa [drainQueue] using h
  | cons w rest ih =>
    intro doc h
    simp only [drainQueue]
    apply ih
    by_cases hn : doc.content = [] ∧ w.value = .undefined
    · obtain ⟨h1, h2⟩ := hn
      simp [doSetPreferenceDoc, h1, h2, h]
    · cases ht : o w with
      | true => simpa [doSetPreferenceDoc, hn, ht] using h
      | false => simp [doSetPreferenceDoc, hn, ht, h]

theorem drainQueue_noThrow_dirty_of_set (ws : List Write) :
    ∀ doc : Doc, (∃ w ∈ ws, w.value ≠ .undefined) →
      (drainQueue (fun _ => false) doc ws).doc.dirty = true := by
  induction ws with
  | nil => intro doc h; simp at h
  | cons w rest ih =>
    intro doc h
    by_cases hw : w.value = .undefined
    · have hrest : ∃ w' ∈ rest, w'.value ≠ .undefined := by
        obtain ⟨w', hmem, hne⟩ := h
        rcases List.mem_cons.mp hmem with heq | hmem'
        · exact absurd (heq ▸ hw) hne
        · exact ⟨w', hmem', hne⟩
      simp only [drainQueue, doSetPreferenceDoc_noThrow]
      exact ih _ hrest
    · simp only [drainQueue, doSetPreferenceDoc_noThrow]
      apply drainQueue_dirty_mono
      simp [modifyProducesEdits_of_set _ _ hw]

theorem drainQueue_fst (o : Write → Bool) (ws : List Write) :
    ∀ doc : Doc, (drainQueue o doc ws).resolvedInLoop.map Prod.fst = ws := by
  induction ws with
  | nil => intro doc; simp [drainQueue]
  | cons w rest ih =>
    intro doc
    simp [drainQueue, ih]

theorem finishFlush_resolved (d : DrainState) (sr : Option Bool) :
    (finishFlush d sr).resolved =
      d.resolvedInLoop.map (fun p => (p.1,
        match p.2 with
        | .sharedOutcome => (finishFlush d sr).success
        | .immediateFalse => false)) := rfl

theorem finishFlush_doc_content (d : DrainState) (sr : Option Bool) :
    (finishFlush d sr).doc.content = d.doc.content := by
  unfold finishFlush
  by_cases h : d.doc.dirty ∧ sr.isSome <;> simp [h]

theorem finishFlush_success_dirty (d : DrainState) (b : Bool)
    (hd : d.doc.dirty = true) : (finishFlush d (some b)).success = b := by
  simp [finishFlush, hd]

theorem runBatchClean_eq (doc : Doc) (w : Write) (ws : List Write)
    (sr : Option Bool) (hclean : doc.dirty = false) :
    runBatchClean doc (w :: ws) sr =
      ({ initialState doc with editQueue := w :: ws, flushStartCount := 1 },
       runFlush (fun _ => false) sr doc (w :: ws)) := by
  unfold runBatchClean
  rw [enqueueBatch_clean (initialState doc) w ws rfl hclean]
  simp [initialState]

/-- Modelled from the spec: `getPath` is protected and overridden by the
concrete providers of this repository (the excerpt contains only the
abstract class); per spec section 4.3 "If value is undefined and path
has no segments, replace the entire document content with empty text",
a section-file provider maps the section's own key to a path with no
segments, and every other key to a path inside the section document. -/
def sectionGetPath (sectionName preferenceName : String) :
    Option (List String) :=
  if preferenceName = sectionName then some [] else some [preferenceName]

/-! ## The claims -/

/-- C10: for every sequence of `acquire`/`release`/`waitUntilFree`
operations on the lock queue, the busy flag is `false` only when the
wait list is empty; and a `release` that finds a non-empty wait list
resolves exactly the head waiter (FIFO), keeps the busy flag `true`, and
does not fire the free notification, so the lock is never observed free
while a waiter holds or awaits it. -/
theorem C10_busy_until_queue_empty :
    (∀ ops : List LockOp,
      (LockQueue.run ops).busy = false → (LockQueue.run ops).queue = []) ∧
    (∀ ops : List LockOp, ∀ w : Nat, ∀ rest : List Nat,
      (LockQueue.run ops).queue = w :: rest →
        (LockQueue.run ops).busy = true ∧
        (LockQueue.run ops).release.2.transferredTo = some w ∧
        (LockQueue.run ops).release.2.freedObservers = [] ∧
        (LockQueue.run ops).release.1.busy = true ∧
        (LockQueue.run ops).release.1.queue = rest) := by
  constructor
  · exact fun ops => LockQueue.inv_run ops
  · intro ops w rest hq
    have hbusy : (LockQueue.run ops).busy = true := by
      by_contra hb
      have := LockQueue.inv_run ops (by simpa using hb)
      simp [hq] at this
    refine ⟨hbusy, ?_, ?_, ?_, ?_⟩ <;>
      simp [LockQueue.release, hq, hbusy]

/-- Witness for C10 at a concrete trace: two acquires leave waiter `1`
queued, and releasing transfers to it without freeing the lock. -/
theorem C10_witness :
    (LockQueue.run [LockOp.acquire 0, LockOp.acquire 1]).busy = true ∧
    (LockQueue.run [LockOp.acquire 0, LockOp.acquire 1]).release.2.transferredTo
      = some 1 ∧
    (LockQueue.run [LockOp.acquire 0, LockOp.acquire 1]).release.1.busy = true := by
  have h := C10_busy_until_queue_empty.2 [LockOp.acquire 0, LockOp.acquire 1]
    1 [] (by decide)
  exact ⟨h.1, h.2.1, h.2.2.2.1⟩

/-- C3: `waitUntilFree` resolves immediately when the lock is not held,
and otherwise resolves only on a release that finds the wait list empty
(the transition to the fully free state), never on a transfer to a
queued waiter; it never itself takes the lock or touches the wait list;
and `setPreference` enqueues only once the lock is fully free, blocking
while it is busy. -/
theorem C3_waitUntilFree_only_fully_free :
    (∀ (l : LockQueue) (obs : Nat), l.busy = false →
      l.waitUntilFree obs = (l, true)) ∧
    (∀ (l : LockQueue) (obs : Nat), l.busy = true →
      l.waitUntilFree obs = ({ l with observers := l.observers ++ [obs] }, false)) ∧
    (∀ (l : LockQueue) (obs : Nat),
      (l.waitUntilFree obs).1.busy = l.busy ∧
      (l.waitUntilFree obs).1.queue = l.queue) ∧
    (∀ (l : LockQueue) (w : Nat) (rest : List Nat), l.queue = w :: rest →
      l.release.2.freedObservers = [] ∧
      l.release.1.observers = l.observers ∧
      l.release.1.busy = l.busy) ∧
    (∀ l : LockQueue, l.queue = [] →
      l.release.1.busy = false ∧ l.release.2.freedObservers = l.observers) ∧
    (∀ (s : CoordState) (w : Write), s.lock.busy = true →
      setPreferenceStart true true s w = SetPrefStart.blockedOnLock) ∧
    (∀ (s : CoordState) (w : Write), s.lock.busy = false →
      setPreferenceStart true true s w = SetPrefStart.enqueued (enqueueStep s w)) := by
  refine ⟨?_, ?_, ?_, ?_, ?_, ?_, ?_⟩
  · intro l obs h; simp [LockQueue.waitUntilFree, h]
  · intro l obs h; simp [LockQueue.waitUntilFree, h]
  · intro l obs
    by_cases h : l.busy <;> simp [LockQueue.waitUntilFree, h]
  · intro l w rest hq; simp [LockQueue.release, hq]
  · intro l hq; simp [LockQueue.release, hq]
  · intro s w h; simp [setPreferenceStart, h]
  · intro s w h; simp [setPreferenceStart, h]

/-- Witness for C3 at concrete states: a busy lock queues the observer
and blocks `setPreference`; a free lock resolves the observer at once. -/
theorem C3_witness :
    (LockQueue.mk [] true []).waitUntilFree 7 = (LockQueue.mk [] true [7], false) ∧
    (LockQueue.mk [] false []).waitUntilFree 7 = (LockQueue.mk [] false [], true) ∧
    setPreferenceStart true true
      { initialState (Doc.mk [] false true) with lock := LockQueue.mk [] true [] }
      (Write.mk "a" (JValue.numv 1)) = SetPrefStart.blockedOnLock := by
  have h := C3_waitUntilFree_only_fully_free
  exact ⟨h.2.1 _ 7 rfl, h.1 _ 7 rfl, h.2.2.2.2.2.1 _ _ rfl⟩

/-- C7: a re-parse triggered while the document is dirty is an early
no-op — the stored snapshot and the emitted changes are untouched — so
the snapshot only ever reflects the last clean parse; once the document
is clean again the re-parse replaces the snapshot with the parsed
content (or the empty snapshot when invalid). -/
theorem C7_dirty_reparse_is_noop (hasSchema validInScope : String → Bool)
    (m : Doc) (prefs : List (String × JValue)) :
    (m.dirty = true →
      readPreferences hasSchema validInScope (some m) prefs = ⟨prefs, []⟩) ∧
    (m.dirty = false → m.valid = true →
      (readPreferences hasSchema validInScope (some m) prefs).preferences
        = getParsedContent m.content) ∧
    (m.dirty = false → m.valid = false →
      (readPreferences hasSchema validInScope (some m) prefs).preferences
        = []) := by
  refine ⟨?_, ?_, ?_⟩
  · intro h; simp [readPreferences, h]
  · intro h hv; simp [readPreferences, h, hv, handlePreferenceChanges]
  · intro h hv; simp [readPreferences, h, hv, handlePreferenceChanges]

/-- Witness for C7: a dirty document leaves a concrete snapshot exactly
as it was, and a clean one replaces it with the parsed content. -/
theorem C7_witness :
    readPreferences (fun _ => false) (fun _ => true)
      (some (Doc.mk [("a", JValue.numv 1)] true true)) [("b", JValue.numv 2)]
      = ⟨[("b", JValue.numv 2)], []⟩ ∧
    (readPreferences (fun _ => false) (fun _ => true)
      (some (Doc.mk [("a", JValue.numv 1)] false true))
      [("b", JValue.numv 2)]).preferences = [("a", JValue.numv 1)] := by
  have h1 := (C7_dirty_reparse_is_noop (fun _ => false) (fun _ => true)
    (Doc.mk [("a", JValue.numv 1)] true true) [("b", JValue.numv 2)]).1 rfl
  have h2 := (C7_dirty_reparse_is_noop (fun _ => false) (fun _ => true)
    (Doc.mk [("a", JValue.numv 1)] false true) [("b", JValue.numv 2)]).2.1 rfl rfl
  refine ⟨h1, ?_⟩
  rw [h2]
  decide

/-- C9: disposal clears the in-memory snapshot to empty and pushes a
removal change record (old value to `undefined`) for every key present
in the snapshot; the hypothesis that no stored value is itself
`undefined` holds of every snapshot the provider can store, since
parsed JSON content never produces `undefined` values. -/
theorem C9_reset_emits_removals (prefs : List (String × JValue))
    (h : ∀ kv ∈ prefs, kv.2 ≠ JValue.undefined) :
    (reset prefs).1 = [] ∧
    (reset prefs).2 = prefs.map (fun kv => ⟨kv.1, kv.2, JValue.undefined⟩) := by
  have aux : ∀ l : List (String × JValue),
      (∀ kv ∈ l, kv.2 ≠ JValue.undefined) →
      (l.filterMap fun kv =>
        if kv.2 ≠ JValue.undefined then
          some (⟨kv.1, kv.2, JValue.undefined⟩ : PrefChange)
        else none)
        = l.map (fun kv => ⟨kv.1, kv.2, JValue.undefined⟩) := by
    intro l
    induction l with
    | nil => intro _; rfl
    | cons kv tl ih =>
      intro hl
      have hkv := hl kv (List.mem_cons_self kv tl)
      rw [List.filterMap_cons]
      simp only [hkv, if_true, ne_eq, not_false_iff, List.map]
      rw [ih (fun kv' hm => hl kv' (List.mem_cons_of_mem kv hm))]
  exact ⟨rfl, aux prefs h⟩

/-- Witness for C9 on a concrete two-key snapshot. -/
theorem C9_witness :
    (reset [("a", JValue.boolv true), ("b", JValue.numv 3)]).1 = [] ∧
    (reset [("a", JValue.boolv true), ("b", JValue.numv 3)]).2 =
      [⟨"a", JValue.boolv true, JValue.undefined⟩,
       ⟨"b", JValue.numv 3, JValue.undefined⟩] := by
  have h := C9_reset_emits_removals
    [("a", JValue.boolv true), ("b", JValue.numv 3)] (by decide)
  exact ⟨h.1, h.2⟩

/-- C4: when the first write of a batch arrives on an empty queue while
the document is dirty, the whole batch arms the dirty gate and shows the
dirty-editor prompt exactly once, no matter how many further writes are
enqueued before the prompt is resolved; a write that finds a non-empty
queue never re-arms the gate or re-shows the prompt. -/
theorem C4_dirty_prompt_shown_once (s0 : CoordState) (w : Write)
    (ws : List Write) (hq : s0.editQueue = []) (hd : s0.doc.dirty = true) :
    (enqueueBatch s0 (w :: ws)).promptCount = s0.promptCount + 1 ∧
    (enqueueBatch s0 (w :: ws)).dirtyGatePending = true ∧
    (enqueueBatch s0 (w :: ws)).editQueue = w :: ws ∧
    (∀ (s : CoordState) (w' : Write), s.editQueue ≠ [] →
      (enqueueStep s w').promptCount = s.promptCount ∧
      (enqueueStep s w').dirtyGatePending = s.dirtyGatePending) := by
  refine ⟨?_, ?_, ?_, ?_⟩
  · rw [enqueueBatch_dirty s0 w ws hq hd]
  · rw [enqueueBatch_dirty s0 w ws hq hd]
  · rw [enqueueBatch_dirty s0 w ws hq hd]
  · intro s w' hne
    rw [enqueueStep_nonempty s w' hne]
    exact ⟨rfl, rfl⟩

/-- Witness for C4: three writes arriving on a dirty document show the
prompt once. -/
theorem C4_witness :
    (enqueueBatch (initialState (Doc.mk [] true true))
      [Write.mk "a" (JValue.numv 1), Write.mk "b" (JValue.numv 2),
       Write.mk "c" (JValue.numv 3)]).promptCount = 1 ∧
    (enqueueBatch (initialState (Doc.mk [] true true))
      [Write.mk "a" (JValue.numv 1), Write.mk "b" (JValue.numv 2),
       Write.mk "c" (JValue.numv 3)]).dirtyGatePending = true := by
  have h := C4_dirty_prompt_shown_once (initialState (Doc.mk [] true true))
    (Write.mk "a" (JValue.numv 1))
    [Write.mk "b" (JValue.numv 2), Write.mk "c" (JValue.numv 3)] rfl rfl
  exact ⟨h.1, h.2.1⟩

/-- C5: when the user answers the dirty-editor prompt with anything
other than `Save and Retry`, every write queued up to that point is
resolved to `false`, the edit queue is emptied, no save of the model is
triggered by the handler, the dirty-handled gate is resolved exactly
once, the drain loop that was blocked on the gate then applies no edit
to the document, and a write submitted afterwards finds an empty queue
and starts a new flush transaction. -/
theorem C5_dismissal_fails_queued_writes (choice : DirtyChoice)
    (modelPresent : Bool) (queue : List Write)
    (h : choice ≠ DirtyChoice.saveAndRetry) :
    (handleDirtyEditor choice modelPresent queue).resolvedFalse = queue ∧
    (handleDirtyEditor choice modelPresent queue).editQueue = [] ∧
    (handleDirtyEditor choice modelPresent queue).modelSaved = false ∧
    (handleDirtyEditor choice modelPresent queue).gateResolveCount = 1 ∧
    (∀ (o : Write → Bool) (doc : Doc),
      (drainQueue o doc
        (handleDirtyEditor choice modelPresent queue).editQueue).doc = doc ∧
      (drainQueue o doc
        (handleDirtyEditor choice modelPresent queue).editQueue).resolvedInLoop
        = []) ∧
    (∀ (s : CoordState) (w : Write), s.editQueue = [] →
      (enqueueStep s w).flushStartCount = s.flushStartCount + 1) := by
  have hch : ¬ (choice = DirtyChoice.saveAndRetry) := h
  refine ⟨?_, ?_, ?_, ?_, ?_, ?_⟩
  · simp [handleDirtyEditor, hch]
  · simp [handleDirtyEditor, hch]
  · simp [handleDirtyEditor, hch]
  · simp [handleDirtyEditor, hch]
  · intro o doc
    constructor <;> simp [handleDirtyEditor, hch, drainQueue]
  · intro s w hq
    by_cases hd : s.doc.dirty
    · rw [enqueueStep_empty_dirty s w hq hd]
    · rw [enqueueStep_empty_not_dirty s w hq (by simpa using hd)]

/-- Witness for C5: dismissing the prompt over a two-write queue fails
both writes and clears the queue. -/
theorem C5_witness :
    (handleDirtyEditor DirtyChoice.dismissed true
      [Write.mk "a" (JValue.numv 1), Write.mk "b" (JValue.numv 2)]).resolvedFalse
      = [Write.mk "a" (JValue.numv 1), Write.mk "b" (JValue.numv 2)] ∧
    (handleDirtyEditor DirtyChoice.dismissed true
      [Write.mk "a" (JValue.numv 1), Write.mk "b" (JValue.numv 2)]).editQueue
      = [] ∧
    (handleDirtyEditor DirtyChoice.dismissed true
      [Write.mk "a" (JValue.numv 1), Write.mk "b" (JValue.numv 2)]).gateResolveCount
      = 1 := by
  have h := C5_dismissal_fails_queued_writes DirtyChoice.dismissed true
    [Write.mk "a" (JValue.numv 1), Write.mk "b" (JValue.numv 2)] (by decide)
  exact ⟨h.1, h.2.1, h.2.2.2.1⟩

/-- C6: a per-key edit application that throws is caught locally (one
error notification, result `false`, document untouched); in the drain
loop the failing write is resolved to `false` immediately while the
remaining queued writes are still attempted; every queued write is
drained and resolved regardless of failures, and an immediately-failed
write keeps the outcome `false` in the final per-write resolutions of
the transaction. -/
theorem C6_edit_failure_isolated :
    (∀ (doc : Doc) (w : Write), ¬ (doc.content = [] ∧ w.value = .undefined) →
      doSetPreferenceDoc doc w true =
        { result := false, doc := doc, caughtError := true }) ∧
    (∀ (o : Write → Bool) (doc : Doc) (w : Write) (ws : List Write),
      o w = true → ¬ (doc.content = [] ∧ w.value = .undefined) →
      drainQueue o doc (w :: ws) =
        { doc := (drainQueue o doc ws).doc
          resolvedInLoop :=
            (w, EditOutcome.immediateFalse) :: (drainQueue o doc ws).resolvedInLoop
          notifications := 1 + (drainQueue o doc ws).notifications }) ∧
    (∀ (o : Write → Bool) (doc : Doc) (ws : List Write),
      (drainQueue o doc ws).resolvedInLoop.map Prod.fst = ws) ∧
    (∀ (o : Write → Bool) (sr : Option Bool) (doc : Doc) (ws : List Write)
        (w : Write),
      (w, EditOutcome.immediateFalse) ∈ (drainQueue o doc ws).resolvedInLoop →
      (w, false) ∈ (runFlush o sr doc ws).resolved) := by
  refine ⟨?_, ?_, ?_, ?_⟩
  · intro doc w hn
    simp [doSetPreferenceDoc, hn]
  · intro o doc w ws ht hn
    simp [drainQueue, doSetPreferenceDoc, hn, ht]
  · intro o doc ws
    exact drainQueue_fst o ws doc
  · intro o sr doc ws w hmem
    unfold runFlush
    rw [finishFlush_resolved]
    have := List.mem_map_of_mem (fun p : Write × EditOutcome => (p.1,
      match p.2 with
      | EditOutcome.sharedOutcome => (finishFlush (drainQueue o doc ws) sr).success
      | EditOutcome.immediateFalse => false)) hmem
    simpa using this

/-- Witness for C6: with every apply throwing, a two-write drain on a
non-empty document fails both writes with two notifications and leaves
the document unchanged. -/
theorem C6_witness :
    doSetPreferenceDoc (Doc.mk [("x", JValue.numv 1)] false true)
      (Write.mk "a" (JValue.numv 2)) true =
      { result := false, doc := Doc.mk [("x", JValue.numv 1)] false true,
        caughtError := true } ∧
    (drainQueue (fun _ => true) (Doc.mk [("x", JValue.numv 1)] false true)
      [Write.mk "a" (JValue.numv 2), Write.mk "b" (JValue.numv 3)]).resolvedInLoop.map
      Prod.fst = [Write.mk "a" (JValue.numv 2), Write.mk "b" (JValue.numv 3)] := by
  have h := C6_edit_failure_isolated
  exact ⟨h.1 _ _ (by decide), h.2.2.1 _ _ _⟩

/-- C8: with a path that has no segments (as produced by the overridden
`getPath` of a section provider for the section's own key, modelled from
the spec) and value `undefined`, `doSetPreference` on a document whose
non-empty content is that single key takes the full-clear branch:
it replaces the whole document with empty text and returns `true`, so
the drain loop hands the write the shared outcome and the write resolves
successfully once the transaction's save succeeds. -/
theorem C8_empty_path_full_clear (sec content mtxt : String)
    (hcontent : content ≠ "") :
    doSetPreferenceText (sectionGetPath sec sec) true content mtxt false =
      { result := true, text := "", caughtError := false } ∧
    (∀ (d : DrainState) (w : Write),
      (w, EditOutcome.sharedOutcome) ∈ d.resolvedInLoop →
      d.doc.dirty = true →
      (w, true) ∈ (finishFlush d (some true)).resolved) := by
  constructor
  · simp [sectionGetPath, doSetPreferenceText, hcontent]
  · intro d w hmem hd
    rw [finishFlush_resolved]
    have := List.mem_map_of_mem (fun p : Write × EditOutcome => (p.1,
      match p.2 with
      | EditOutcome.sharedOutcome => (finishFlush d (some true)).success
      | EditOutcome.immediateFalse => false)) hmem
    simpa [finishFlush_success_dirty d true hd] using this

/-- Witness for C8 on concrete text: clearing a one-key section document
succeeds with empty resulting text. -/
theorem C8_witness :
    doSetPreferenceText (sectionGetPath "launch" "launch") true
      "\x7b \"edit\": 1 \x7d" "unused" false =
      { result := true, text := "", caughtError := false } := by
  exact (C8_empty_path_full_clear "launch" "\x7b \"edit\": 1 \x7d" "unused"
    (by decide)).1

/-- C2: every write drained by one flush transaction whose per-key edit
applies cleanly is resolved through the shared placeholder to the one
transaction outcome `success`, and every failed edit to `false` — the
success/failure report is per-transaction.  Concretely, two writes
`a = 1` then `b = 2` enqueued on a clean empty document are drained by
one flush, one save occurs, the parsed content ends as
`a = 1, b = 2`, and both callers' outcomes equal the save's success
value `true`. -/
theorem C2_shared_transaction_outcome :
    (∀ (o : Write → Bool) (sr : Option Bool) (doc : Doc) (q : List Write),
      ∀ p ∈ (drainQueue o doc q).resolvedInLoop,
        (p.2 = EditOutcome.sharedOutcome →
          (p.1, (runFlush o sr doc q).success) ∈ (runFlush o sr doc q).resolved) ∧
        (p.2 = EditOutcome.immediateFalse →
          (p.1, false) ∈ (runFlush o sr doc q).resolved)) ∧
    ((runBatchClean (Doc.mk [] false true)
        [Write.mk "a" (JValue.numv 1), Write.mk "b" (JValue.numv 2)]
        (some true)).2.resolved
      = [(Write.mk "a" (JValue.numv 1), true),
         (Write.mk "b" (JValue.numv 2), true)]) ∧
    ((runBatchClean (Doc.mk [] false true)
        [Write.mk "a" (JValue.numv 1), Write.mk "b" (JValue.numv 2)]
        (some true)).2.saveCount = 1) ∧
    ((runBatchClean (Doc.mk [] false true)
        [Write.mk "a" (JValue.numv 1), Write.mk "b" (JValue.numv 2)]
        (some true)).2.doc.content
      = [("a", JValue.numv 1), ("b", JValue.numv 2)]) ∧
    ((runBatchClean (Doc.mk [] false true)
        [Write.mk "a" (JValue.numv 1), Write.mk "b" (JValue.numv 2)]
        (some true)).1.flushStartCount = 1) := by
  refine ⟨?_, by decide, by decide, by decide, by decide⟩
  intro o sr doc q p hp
  constructor
  · intro h2
    unfold runFlush
    rw [finishFlush_resolved]
    have := List.mem_map_of_mem (fun pp : Write × EditOutcome => (pp.1,
      match pp.2 with
      | EditOutcome.sharedOutcome => (finishFlush (drainQueue o doc q) sr).success
      | EditOutcome.immediateFalse => false)) hp
    simpa [h2] using this
  · intro h2
    unfold runFlush
    rw [finishFlush_resolved]
    have := List.mem_map_of_mem (fun pp : Write × EditOutcome => (pp.1,
      match pp.2 with
      | EditOutcome.sharedOutcome => (finishFlush (drainQueue o doc q) sr).success
      | EditOutcome.immediateFalse => false)) hp
    simpa [h2] using this

/-- Witness for C2: in the healthy one-write transaction the cleanly
applied write resolves to the shared transaction outcome. -/
theorem C2_witness :
    ((Write.mk "a" (JValue.numv 1),
      (runFlush (fun _ => false) (some true) (Doc.mk [] false true)
        [Write.mk "a" (JValue.numv 1)]).success) ∈
      (runFlush (fun _ => false) (some true) (Doc.mk [] false true)
        [Write.mk "a" (JValue.numv 1)]).resolved) := by
  have h := (C2_shared_transaction_outcome.1 (fun _ => false) (some true)
    (Doc.mk [] false true) [Write.mk "a" (JValue.numv 1)]
    (Write.mk "a" (JValue.numv 1), EditOutcome.sharedOutcome)
    (by decide)).1 rfl
  exact h

/-- C1 counterexample: two overlapping `setPreference` calls that delete
keys from a clean *empty* document are a batch for which the code
triggers no save at all: `doSetPreference` returns `true` at the
empty-content early exit without editing (source lines 229-232), the
document never becomes dirty, and the flush's dirty check (source
line 208) skips the save — yet one flush ran and both writes resolve
`true`.  This refutes "exactly one save of the document for the whole
batch". -/
theorem C1_counterexample_noop_deletes_skip_save :
    (runBatchClean (Doc.mk [] false true)
      [Write.mk "a" JValue.undefined, Write.mk "b" JValue.undefined]
      (some true)).2.saveCount = 0 ∧
    (runBatchClean (Doc.mk [] false true)
      [Write.mk "a" JValue.undefined, Write.mk "b" JValue.undefined]
      (some true)).1.flushStartCount = 1 ∧
    (runBatchClean (Doc.mk [] false true)
      [Write.mk "a" JValue.undefined, Write.mk "b" JValue.undefined]
      (some true)).2.resolved
      = [(Write.mk "a" JValue.undefined, true), (Write.mk "b" JValue.undefined, true)] := by
  decide

/-- C1 (amended): for every non-empty batch of overlapping
`setPreference` calls enqueued on a clean document and drained by the
one flush transaction the first call starts, at most one save is ever
triggered, and exactly one save is triggered provided at least one call
writes a defined value (so that a document edit is actually applied);
no dirty prompt is shown, and the persisted value of any key after the
save equals the value of the last call in the batch that wrote that key
(deleted when that value was `undefined`, unchanged when no call wrote
the key). -/
theorem C1_amended_single_save_last_writer (doc : Doc) (w : Write)
    (ws : List Write) (sr : Bool) (hclean : doc.dirty = false)
    (heff : ∃ u ∈ w :: ws, u.value ≠ JValue.undefined) :
    (runBatchClean doc (w :: ws) (some sr)).1.flushStartCount = 1 ∧
    (runBatchClean doc (w :: ws) (some sr)).1.promptCount = 0 ∧
    (runBatchClean doc (w :: ws) (some sr)).2.saveCount = 1 ∧
    (∀ (o : Write → Bool) (srr : Option Bool) (d : Doc) (q : List Write),
      (runFlush o srr d q).saveCount ≤ 1) ∧
    (∀ k : String,
      lookupKey (runBatchClean doc (w :: ws) (some sr)).2.doc.content k =
        match lastWritten (w :: ws) k with
        | some v => if v = JValue.undefined then none else some v
        | none => lookupKey doc.content k) := by
  rw [runBatchClean_eq doc w ws (some sr) hclean]
  have hdirty : (drainQueue (fun _ => false) doc (w :: ws)).doc.dirty = true :=
    drainQueue_noThrow_dirty_of_set (w :: ws) doc heff
  refine ⟨rfl, rfl, ?_, ?_, ?_⟩
  · unfold runFlush finishFlush
    simp [hdirty]
  · intro o srr d q
    unfold runFlush finishFlush
    by_cases h : (drainQueue o d q).doc.dirty <;> simp [h]
  · intro k
    unfold runFlush
    rw [finishFlush_doc_content, drainQueue_noThrow_content, lookupKey_applyAll]

/-- Witness for C1 (amended): two writes to the same key on a clean
one-key document save once and persist the second value. -/
theorem C1_amended_witness :
    (runBatchClean (Doc.mk [("c", JValue.boolv true)] false true)
      [Write.mk "a" (JValue.numv 1), Write.mk "a" (JValue.numv 2)]
      (some true)).2.saveCount = 1 ∧
    lookupKey (runBatchClean (Doc.mk [("c", JValue.boolv true)] false true)
      [Write.mk "a" (JValue.numv 1), Write.mk "a" (JValue.numv 2)]
      (some true)).2.doc.content "a" = some (JValue.numv 2) ∧
    lookupKey (runBatchClean (Doc.mk [("c", JValue.boolv true)] false true)
      [Write.mk "a" (JValue.numv 1), Write.mk "a" (JValue.numv 2)]
      (some true)).2.doc.content "c" = some (JValue.boolv true) := by
  have h := C1_amended_single_save_last_writer
    (Doc.mk [("c", JValue.boolv true)] false true)
    (Write.mk "a" (JValue.numv 1)) [Write.mk "a" (JValue.numv 2)] true rfl
    ⟨Write.mk "a" (JValue.numv 1), by decide, by decide⟩
  refine ⟨h.2.2.1, ?_, ?_⟩
  · rw [h.2.2.2.2 "a"]
    decide
  · rw [h.2.2.2.2 "c"]
    decide

end PrefProvider
